import Mathlib

/-!
Verification of the substructure scheduling and reconciliation engine of
`ppropt.py` (protein residue optimisation pipeline).

This file contains a shallow embedding of the pure computational content of
the source: the density-based round scheduler of `PRO._load_molecule`, the
neighbour queries, the per-residue density score, the substructure builder of
`optimise_substructure` (member selection, constrained/free atom
partitioning, boundary-hydrogen capping), the xtb settings file and its
retry rewrite, the outcome classification, and the coordinate commit loop of
`PRO.optimise`.

Conventions:
* machine floats are embedded as exact rationals (the numeric literals of the
  source, such as `3.14`, `1.1`, `4`, `6`, are exact in ℚ);
* every comparison `dist(p,q) ⋈ c` of a Euclidean distance
  `((px-qx)^2+(py-qy)^2+(pz-qz)^2)^(1/2)` with a nonnegative cutoff `c` is
  embedded as the equivalent exact comparison `sqDist p q ⋈ c^2` of squared
  quantities (the square root is strictly monotone on nonnegative reals);
* residues are identified by their position in the structure's residue list;
  the source indexes its per-residue arrays by `res.id[1] - 1`, relying on
  1-based contiguous residue numbering, so position `i` corresponds to
  residue id `i + 1`.
-/

namespace PPROpt

/-- A 3-dimensional coordinate (the source stores numpy float triples). -/
abbrev Point : Type := ℚ × ℚ × ℚ

/-- Squared Euclidean distance between two points.  The source computes
`((a0-b0)**2 + (a1-b1)**2 + (a2-b2)**2)**(1/2)`; we keep the squared value
and compare it against squared cutoffs. -/
def sqDist (p q : Point) : ℚ :=
  (p.1 - q.1) ^ 2 + (p.2.1 - q.2.1) ^ 2 + (p.2.2 - q.2.2) ^ 2

/-! ### Round scheduler (`PRO._load_molecule`, lines 270-289)

The source peels residues into rounds: a residue is appended to the current
round when no member of its neighbour set — other than itself — that has a
strictly greater density score is still unscheduled (`already_sorted` is
false).  The round's residues are then removed from the unscheduled pool and
marked, and the pass repeats while the pool is nonempty.

We embed the scheduler over an arbitrary residue count `n`, density table
`density : Fin n → ℚ` and neighbour relation `near : Fin n → Fin n → Bool`
(`near i j` = residue `j` belongs to `self.nearest_residues[i]`); the
geometric instantiation computed by `_load_molecule` is `sorted_residues_of`
below.  The source's `while` loop carries no fuel; we give the recursion
`unsorted.length` fuel at the top and prove that this fuel is never
exhausted (each pass schedules at least one residue). -/

/-- Eligibility test of the peeling pass: the source `break`s out (making the
residue ineligible) exactly when some neighbour other than the residue itself
is unscheduled and has a strictly greater density score. -/
def eligible {n : ℕ} (density : Fin n → ℚ) (near : Fin n → Fin n → Bool)
    (alreadySorted : Fin n → Bool) (res : Fin n) : Bool :=
  decide (∀ nb : Fin n, near res nb = true → nb ≠ res →
    alreadySorted nb = false → density nb ≤ density res)

/-- One pass of the peeling loop: collect, in pool order, every unscheduled
residue that is eligible under the current `already_sorted` marks (the marks
are only updated after the whole pass, as in the source). -/
def schedulePass {n : ℕ} (density : Fin n → ℚ) (near : Fin n → Fin n → Bool)
    (alreadySorted : Fin n → Bool) (unsorted : List (Fin n)) : List (Fin n) :=
  unsorted.filter (eligible density near alreadySorted)

/-- The peeling loop.  After a pass, the round's members are marked and
removed from the pool (the source removes them one by one with
`list.remove`; on a duplicate-free pool this is the same as filtering them
out). -/
def scheduleAux {n : ℕ} (density : Fin n → ℚ) (near : Fin n → Fin n → Bool) :
    ℕ → (Fin n → Bool) → List (Fin n) → List (List (Fin n))
  | 0, _, _ => []
  | fuel + 1, alreadySorted, unsorted =>
    if unsorted.isEmpty then []
    else
      let round := schedulePass density near alreadySorted unsorted
      round :: scheduleAux density near fuel
        (fun i => alreadySorted i || round.contains i)
        (unsorted.filter (fun r => !round.contains r))

/-- `self.sorted_residues`: the full round plan, starting from all residues
unscheduled, in list order. -/
def sorted_residues {n : ℕ} (density : Fin n → ℚ) (near : Fin n → Fin n → Bool) :
    List (List (Fin n)) :=
  scheduleAux density near n (fun _ => false) (List.finRange n)

/-- Test fixture for the scheduler witnesses: two mutually neighbouring
residues with density scores 5 and 3 (the example of spec §8). -/
def densW : Fin 2 → ℚ := fun i => if i.val = 0 then 5 else 3

/-- Test fixture: the all-pairs neighbour relation on two residues. -/
def nearW : Fin 2 → Fin 2 → Bool := fun _ _ => true

/-! ### Structure data and spatial queries (`PRO._load_molecule`, lines 214-267) -/

/-- An atom of the loaded structure: PDB atom name and coordinate. -/
structure AtomData where
  name : String
  coord : Point
deriving DecidableEq

/-- A residue of the loaded structure: residue sequence number
(`residue.id[1]`), residue type code (`residue.resname`) and its atoms in
file order. -/
structure ResidueData where
  index : ℕ
  resname : String
  atoms : List AtomData
deriving DecidableEq

/-- The `amk_radius` characteristic-radius table of `_load_molecule`
(lines 228-247).  A residue name outside the table raises `KeyError` in the
source; we return 0 for such names, and no claim below depends on that
default. -/
def amk_radius : String → ℚ
  | "ALA" => 2.4801
  | "ARG" => 4.8618
  | "ASN" => 3.2237
  | "ASP" => 2.8036
  | "CYS" => 2.5439
  | "GLN" => 3.8456
  | "GLU" => 3.3963
  | "GLY" => 2.1455
  | "HIS" => 3.8376
  | "ILE" => 3.4050
  | "LEU" => 3.5357
  | "LYS" => 4.4521
  | "MET" => 4.1821
  | "PHE" => 4.1170
  | "PRO" => 2.8418
  | "SER" => 2.4997
  | "THR" => 2.7487
  | "TRP" => 4.6836
  | "TYR" => 4.5148
  | "VAL" => 2.9515
  | _ => 0

/-- `residue.center_of_mass(geometric=True)`: the arithmetic mean of the
residue's atom coordinates (geometric centre, no mass weighting). -/
def center_of_mass (atoms : List AtomData) : Point :=
  ((atoms.map (fun a => a.coord.1)).sum / (atoms.length : ℚ),
   (atoms.map (fun a => a.coord.2.1)).sum / (atoms.length : ℚ),
   (atoms.map (fun a => a.coord.2.2)).sum / (atoms.length : ℚ))

/-- All atoms of the structure, in residue order
(`self.structure.get_atoms()`). -/
def structureAtoms (rs : List ResidueData) : List AtomData :=
  (rs.map (fun r => r.atoms)).flatten

/-- `kdtree.search(center, radius, level="A")`: the atoms of the structure
within `radius` of `center` (embedded with squared distances; the source's
`len(set(...))` deduplication is the identity on distinct atom objects, so
we count filtered list entries). -/
def atomsWithin (allAtoms : List AtomData) (center : Point) (radius : ℚ) :
    List AtomData :=
  allAtoms.filter (fun a => decide (sqDist a.coord center ≤ radius ^ 2))

/-- `kdtree.search(center, radius, level="R")`: the residues having at least
one atom within `radius` of `center`. -/
def residuesWithin (rs : List ResidueData) (center : Point) (radius : ℚ) :
    List ResidueData :=
  rs.filter (fun res =>
    res.atoms.any (fun a => decide (sqDist a.coord center ≤ radius ^ 2)))

/-- One entry of `self.nearest_residues` (line 249): the residues found by a
radius search around the *geometric centre* of the query residue, with
radius `amk_radius[resname] + 10`. -/
def nearest_residues_of (rs : List ResidueData) (res : ResidueData) :
    List ResidueData :=
  residuesWithin rs (center_of_mass res.atoms) (amk_radius res.resname + 10)

/-- Nominal shell volume `(4 / 3) * 3.14 * radius ** 3` of the density
computation (the source uses the literal `3.14`, exact in ℚ). -/
def shellVolume (radius : ℚ) : ℚ := (4 / 3) * 3.14 * radius ^ 3

/-- The per-residue density score of `_load_molecule` (lines 253-267): three
ball atom-counts around the residue's geometric centre (radii `r+2`, `r+5`,
`r+10` for characteristic radius `r`), each divided by a nominal volume
computed from a *different* radius (`r+3`, `r+10`, `r+15`), combined with
weights 1, 1/10, 1/20. -/
def residueDensity (allAtoms : List AtomData) (res : ResidueData) : ℚ :=
  let r := amk_radius res.resname
  let c := center_of_mass res.atoms
  let density_c := ((atomsWithin allAtoms c (r + 2)).length : ℚ) / shellVolume (r + 3)
  let density_2c := ((atomsWithin allAtoms c (r + 5)).length : ℚ) / shellVolume (r + 10)
  let density_3c := ((atomsWithin allAtoms c (r + 10)).length : ℚ) / shellVolume (r + 15)
  density_c + density_2c / 10 + density_3c / 20

/-- `self.density_of_atoms_around_residues`. -/
def density_of_atoms_around_residues (rs : List ResidueData) : List ℚ :=
  rs.map (residueDensity (structureAtoms rs))

/-- Claim-side score, following the words of C6: "a weighted sum of atom
counts in three concentric shells around the residue's geometric center ...
weights 1, 1/10, 1/20 for the increasing shell sizes", with the shell
(counting) radii the code uses. -/
def specDensityScore (allAtoms : List AtomData) (res : ResidueData) : ℚ :=
  let r := amk_radius res.resname
  let c := center_of_mass res.atoms
  ((atomsWithin allAtoms c (r + 2)).length : ℚ)
    + ((atomsWithin allAtoms c (r + 5)).length : ℚ) / 10
    + ((atomsWithin allAtoms c (r + 10)).length : ℚ) / 20

/-- Counterexample fixture for C6: a single alanine residue with one atom at
the origin. -/
def resC6 : ResidueData := ⟨1, "ALA", [⟨"CA", (0, 0, 0)⟩]⟩

/-- Counterexample fixture for C6: the one-residue structure. -/
def structC6 : List ResidueData := [resC6]

/-- Claim-side neighbour query, following the words of C7 and §4.1 of the
spec: the residues whose minimum atom-pairwise distance to the query residue
(minimum over both residues' atom sets) is within the radius. -/
def specResiduesNear (rs : List ResidueData) (query : ResidueData) (radius : ℚ) :
    List ResidueData :=
  rs.filter (fun res => res.atoms.any (fun a => query.atoms.any (fun b =>
    decide (sqDist a.coord b.coord ≤ radius ^ 2))))

/-- Counterexample fixture for C7: an elongated query residue whose
geometric centre is far from both of its atoms. -/
def qResC7 : ResidueData := ⟨1, "ALA", [⟨"C", (0, 0, 0)⟩, ⟨"O", (100, 0, 0)⟩]⟩

/-- Counterexample fixture for C7: a residue 1 Å away from one of the query
residue's atoms but far from the query residue's geometric centre. -/
def otherResC7 : ResidueData := ⟨2, "ALA", [⟨"N", (0, 1, 0)⟩]⟩

/-- Counterexample fixture for C7: the two-residue structure. -/
def structC7 : List ResidueData := [qResC7, otherResC7]

/-! ### Substructure construction (`optimise_substructure`, lines 59-88) -/

/-- The `Residue` dataclass of the source (lines 42-45): a member residue of
a substructure, by residue sequence number, with its constrained atoms. -/
structure Residue where
  index : ℕ
  constrained_atoms : List AtomData
deriving DecidableEq

/-- Per-atom minima of `numba_dist(residue1, residue2)` (lines 48-56),
embedded with squared distances: for an atom `p` of the member residue,
`minSqDistTo targets p` is the squared counterpart of `mins[i]`, the minimum
distance from `p` to the target residue's atoms.  An empty target array is
an error in the source (`distances.min()` of an empty array); we return 0
for it, and no claim depends on that default. -/
def minSqDistTo (targets : List Point) (p : Point) : ℚ :=
  match targets with
  | [] => 0
  | t :: ts => ts.foldl (fun acc q => min acc (sqDist p q)) (sqDist p t)

/-- `numba_dist`'s second result `mins.min()`: the overall minimum (squared)
distance between the two residues' atom sets. -/
def absMinSqDist (targets : List Point) (atoms : List Point) : ℚ :=
  match atoms with
  | [] => 0
  | a :: rest =>
    rest.foldl (fun acc q => min acc (minSqDistTo targets q)) (minSqDistTo targets a)

/-- The constrained-atom test of line 74: `atom.name == "CA" or
atom_distance > 4` (4 Å cutoff, squared on both sides). -/
def isConstrained (targetAtoms : List Point) (a : AtomData) : Bool :=
  a.name == "CA" || decide ((4 : ℚ) ^ 2 < minSqDistTo targetAtoms a.coord)

/-- The member filter of line 71: `absolute_min_distance < 6` (6 Å, squared
on both sides). -/
def closeToTarget (targetAtoms : List Point) (res : ResidueData) : Bool :=
  decide (absMinSqDist targetAtoms (res.atoms.map (fun a => a.coord)) < 6 ^ 2)

/-- The atom loop of lines 73-77: walk the member residue's atoms with the
running substructure-wide 1-based atom counter, collecting the constrained
atoms and their counter values (the source stores `str(counter_atoms)`; the
rendering to decimal strings happens in the settings file below).  Returns
the constrained atoms, their indices, and the counter after the residue. -/
def atomLoop (targetAtoms : List Point) :
    List AtomData → ℕ → List AtomData × List ℕ × ℕ
  | [], counter => ([], [], counter)
  | a :: rest, counter =>
    let next := atomLoop targetAtoms rest (counter + 1)
    if isConstrained targetAtoms a then
      (a :: next.1, counter :: next.2.1, next.2.2)
    else
      next

/-- The member-residue loop of lines 68-79: walk the sorted neighbour
residues; a residue whose overall minimum atom distance to the target is
below 6 Å becomes a member (its atoms advance the counter, its constrained
atoms and indices are collected); all other residues are skipped entirely. -/
def residueLoop (targetAtoms : List Point) :
    List ResidueData → ℕ → List Residue × List ℕ × ℕ
  | [], counter => ([], [], counter)
  | res :: rest, counter =>
    if closeToTarget targetAtoms res then
      let here := atomLoop targetAtoms res.atoms counter
      let next := residueLoop targetAtoms rest here.2.2
      (⟨res.index, here.1⟩ :: next.1, here.2.1 ++ next.2.1, next.2.2)
    else
      residueLoop targetAtoms rest counter

/-- `sorted(PRO.nearest_residues[...])` of line 67: Biopython residues of a
single chain order by sequence number, and Python's `sorted` is stable; we
embed it as the stable insertion sort on the residue index. -/
def sortResidues (rs : List ResidueData) : List ResidueData :=
  List.insertionSort (fun a b => a.index ≤ b.index) rs

/-- The substructure-creation block of lines 63-88: member residues with
their constrained atoms, the constrained atom indices, and the final
counter (the counter starts from 1 "because of xtb countering";
`num_of_atoms` is the final counter minus 1). -/
def substructure (target : ResidueData) (near : List ResidueData) :
    List Residue × List ℕ × ℕ :=
  residueLoop (target.atoms.map (fun a => a.coord)) (sortResidues near) 1

/-- The free atoms of a member residue: the source never materialises this
set — an atom is free during optimisation exactly when it was not placed in
`constrained_atoms` — so the complement defines it. -/
def free_atoms (targetAtoms : List Point) (res : ResidueData) : List AtomData :=
  res.atoms.filter (fun a => !(isConstrained targetAtoms a))

/-- Witness fixture for C3: a single-atom target at the origin. -/
def targetW : List Point := [(0, 0, 0)]

/-- Witness fixture for C3: a member residue with an alpha-carbon, an atom
1 Å from the target (free) and an atom 10 Å from the target (constrained). -/
def resW : ResidueData :=
  ⟨2, "GLY", [⟨"CA", (10, 10, 10)⟩, ⟨"CB", (0, 1, 0)⟩, ⟨"O", (10, 0, 0)⟩]⟩

/-! ### xtb settings file and the retry rewrite (lines 111-134)

The source writes a `$constrain`/`$opt` settings file by substituting the
joined constrained-atom indices for `xxx` in a template, and on a failed
first optimisation rewrites the file with `.replace("rf", "lbfgs")`.  Both
substitutions are Python `str.replace`, embedded below on character lists. -/

/-- Python's `str.replace(pat, rep)`: replace every non-overlapping
occurrence of `pat`, scanning left to right.  Each step consumes at least
one character, so the subject's length is enough fuel; `pyReplace` supplies
it (and the result is fuel-independent, `pyReplaceAux_fuel`). -/
def pyReplaceAux (pat rep : List Char) : ℕ → List Char → List Char
  | 0, s => s
  | _ + 1, [] => []
  | fuel + 1, c :: rest =>
    if pat ≠ [] ∧ pat.isPrefixOf (c :: rest) then
      rep ++ pyReplaceAux pat rep fuel (rest.drop (pat.length - 1))
    else
      c :: pyReplaceAux pat rep fuel rest

/-- `s.replace(pat, rep)` of Python. -/
def pyReplace (pat rep s : List Char) : List Char :=
  pyReplaceAux pat rep s.length s

/-- Adjacent-pair scan: `true` iff the string contains the two-character
pattern `"rf"` as a substring. -/
def hasRF : List Char → Bool
  | c1 :: c2 :: rest => (c1 == 'r' && c2 == 'f') || hasRF (c2 :: rest)
  | _ => false

/-- Decimal digit characters. -/
def digitChar : ℕ → Char
  | 0 => '0'
  | 1 => '1'
  | 2 => '2'
  | 3 => '3'
  | 4 => '4'
  | 5 => '5'
  | 6 => '6'
  | 7 => '7'
  | 8 => '8'
  | _ => '9'

/-- Decimal rendering of Python's `str(counter)` for the atom indices
(most significant digit first; the division recursion gets the number
itself as fuel, which is ample). -/
def natCharsAux : ℕ → ℕ → List Char
  | 0, _ => []
  | fuel + 1, n =>
    if n < 10 then [digitChar n]
    else natCharsAux fuel (n / 10) ++ [digitChar (n % 10)]

/-- `str(n)` for a nonnegative integer. -/
def natChars (n : ℕ) : List Char := natCharsAux (n + 1) n

/-- `", ".join(...)` over decimal-rendered indices. -/
def commaJoin : List ℕ → List Char
  | [] => []
  | [i] => natChars i
  | i :: rest => natChars i ++ [',', ' '] ++ commaJoin rest

/-- Lines 119-120: the text substituted for `xxx` —
`", ".join(constrained_atom_indices) + ", " + ", ".join(str(x) for added
hydrogen indices)`. -/
def constrained_indices_line (cidx hidx : List ℕ) : List Char :=
  commaJoin cidx ++ [',', ' '] ++ commaJoin hidx

/-- The `xtb_settings_template` literal of lines 111-118 (a Python
triple-quoted string; the four-space indentation is part of the content). -/
def xtb_settings_template : List Char :=
  "$constrain\n    atoms: xxx\n    force constant=1.0\n    $end\n    $opt\n    engine=rf\n    $end\n    ".toList

/-- The template up to `xxx`. -/
def settingsPartA : List Char := "$constrain\n    atoms: ".toList

/-- The template between `xxx` and the engine name. -/
def settingsPartB : List Char := "\n    force constant=1.0\n    $end\n    $opt\n    engine=".toList

/-- The template after the engine name. -/
def settingsPartC : List Char := "\n    $end\n    ".toList

/-- The settings content with the atom indices substituted and a given
engine name: apart from the engine, everything is identical. -/
def settingsWithEngine (cidx hidx : List ℕ) (engine : List Char) : List Char :=
  settingsPartA ++ constrained_indices_line cidx hidx ++ settingsPartB ++
    engine ++ settingsPartC

/-- Lines 119-122: `xtb_settings_template.replace("xxx", ...)` — the
settings file content written for the first optimisation attempt. -/
def substructure_settings (cidx hidx : List ℕ) : List Char :=
  pyReplace ('x' :: 'x' :: 'x' :: [])
    (constrained_indices_line cidx hidx) xtb_settings_template

/-! ### Optimiser invocation, retry and outcome (lines 123-156) -/

/-- Outcome of the xtb invocation block: whether the result artifact
`xtbopt.pdb` exists afterwards, the settings content in place at the end,
and how many times xtb ran. -/
structure XtbOutcome where
  artifact : Bool
  finalSettings : List Char
  invocations : ℕ
deriving DecidableEq

/-- Lines 129-134, abstracted over the external optimiser: `produces s`
says whether running xtb with settings content `s` leaves `xtbopt.pdb` in
the working directory.  The source runs once; if the artifact is absent it
rewrites the settings with `.replace("rf", "lbfgs")` and runs exactly once
more; there is no third attempt. -/
def runOptimisation (produces : List Char → Bool) (s0 : List Char) : XtbOutcome :=
  if produces s0 then ⟨true, s0, 1⟩
  else
    ⟨produces (pyReplace ('r' :: 'f' :: []) ("lbfgs".toList) s0),
      pyReplace ('r' :: 'f' :: []) ("lbfgs".toList) s0, 2⟩

/-- Lines 136-150: the outcome category depends only on the existence of
the artifact. -/
def categoryOf (artifact : Bool) : String :=
  if artifact then "Optimised residue" else "Not optimised residue"

/-- Lines 136-151: the returned `substructure_residues` payload — `None`
when the artifact never appeared, so nothing is extracted from a failed
substructure. -/
def resultOf {α : Type} (artifact : Bool) (subs : List α) : Option (List α) :=
  if artifact then some subs else none

/-! ### Coordinate commit loop (`PRO.optimise`, lines 176-198) -/

/-- The per-residue log record of lines 153-155: residue index, one-letter
residue name, and category.  The source's dictionary has exactly these
three keys — in particular it records no residual value. -/
structure LogEntry where
  residueIndex : ℕ
  residueName : String
  category : String
deriving DecidableEq

/-- A member residue as returned from a successful optimisation (lines
147-148): the source attaches `coordinates`, the optimised atom positions,
to each member residue of the substructure. -/
structure OptimisedResidue where
  index : ℕ
  coordinates : List Point
deriving DecidableEq

/-- The atom-coordinate overwrite of lines 188-189:
`zip(optimised_residue.coordinates, ...get_atoms())` overwrites the first
`min(len)` atom positions and leaves any excess atoms unchanged. -/
def updateCoords (newCoords old : List Point) : List Point :=
  newCoords.take old.length ++ old.drop newCoords.length

/-- Write-back of one member residue into the shared structure (the
structure is the list of residue atom-position lists, residue `index`
living at list position `index - 1`). -/

def applyResidueUpdate (st : List (List Point)) (u : OptimisedResidue) :
    List (List Point) :=
  st.set (u.index - 1)
    (updateCoords u.coordinates (st.getD (u.index - 1) []))

/-- Lines 186-189: write-back of one optimisation result; `None` (and, by
Python truthiness, an empty member list) writes nothing. -/
def commitResult (st : List (List Point))
    (r : Option (List OptimisedResidue)) : List (List Point) :=
  match r with
  | none => st
  | some updates => updates.foldl applyResidueUpdate st

/-- Lines 181-189 for one round: every task contributes its log entry, and
every successful payload is committed, in order. -/
def processRound (st : List (List Point))
    (results : List (LogEntry × Option (List OptimisedResidue))) :
    List LogEntry × List (List Point) :=
  (results.map (fun r => r.1),
   results.foldl (fun acc r => commitResult acc r.2) st)

/-- Counterexample fixture for C4: two single-atom residues. -/
def structC4 : List (List Point) := [[(0, 0, 0)], [(5, 5, 5)]]

/-- Counterexample fixture for C4: residue 1's own substructure failed both
attempts (always-failing optimiser ⇒ `None` payload), while residue 2's
substructure succeeded and contains residue 1 as a member, moving it. -/
def resultsC4 : List (LogEntry × Option (List OptimisedResidue)) :=
  [(⟨1, "A",
      categoryOf (runOptimisation (fun _ => false) (substructure_settings [1] [])).artifact⟩,
    resultOf (runOptimisation (fun _ => false) (substructure_settings [1] [])).artifact
      ([] : List OptimisedResidue)),
   (⟨2, "A", categoryOf true⟩,
    resultOf true [⟨1, [(1, 1, 1)]⟩, ⟨2, [(6, 6, 6)]⟩])]

/-! ### Boundary-hydrogen capping (lines 91-107) -/

/-- An `ATOM` line appended by the protonation tool: the residue sequence
number parsed from columns 23-26 (`int(line[22:26])`) and the coordinates
from columns 31-54. -/
structure AddedAtomLine where
  resIndex : ℕ
  coord : Point
deriving DecidableEq

/-- `PRO.structure[res_i]["C"].coord`-style lookup: the named atom of the
residue with the given sequence number in the full input structure.  A
missing residue or atom raises `KeyError` in the source; we return the
origin for it, and every claim below uses structures where the lookup
succeeds. -/
def atomCoord (rs : List ResidueData) (resIndex : ℕ) (aname : String) : Point :=
  match rs.find? (fun r => r.index == resIndex) with
  | some r =>
    match r.atoms.find? (fun a => a.name == aname) with
    | some a => a.coord
    | none => (0, 0, 0)
  | none => (0, 0, 0)

/-- Lines 100-104: an appended hydrogen line is kept iff its position is
within 1.1 Å of the backbone `"C"` atom or of the backbone `"N"` atom of
*its own* residue (the residue number written on the line), looked up in
the full input structure (squared comparison against `1.1^2`). -/
def retainHydrogen (rs : List ResidueData) (line : AddedAtomLine) : Bool :=
  decide (sqDist line.coord (atomCoord rs line.resIndex "C") < (1.1 : ℚ) ^ 2) ||
  decide (sqDist line.coord (atomCoord rs line.resIndex "N") < (1.1 : ℚ) ^ 2)

/-- Lines 95-107: the repair loop — keep the retained added lines, in
order, and record their 1-based atom indices continuing from
`num_of_atoms` (the counter is incremented before each recorded index). -/
def repairLoop (rs : List ResidueData) :
    List AddedAtomLine → ℕ → List AddedAtomLine × List ℕ
  | [], _ => ([], [])
  | line :: rest, counter =>
    if retainHydrogen rs line then
      let next := repairLoop rs rest (counter + 1)
      (line :: next.1, (counter + 1) :: next.2)
    else
      repairLoop rs rest counter

/-- Claim-side notion, following the words of C8 (and spec §4.4, §8): the
residues of the substructure "whose peptide bond was severed by the
extraction" — members having a sequence neighbour (index ± 1) present in
the full structure but absent from the extracted members. -/
def severedResidues (memberIdx allIdx : List ℕ) : List ℕ :=
  memberIdx.filter (fun i =>
    decide ((i - 1 ∈ allIdx ∧ i - 1 ∉ memberIdx) ∨
            (i + 1 ∈ allIdx ∧ i + 1 ∉ memberIdx)))

/-- Counterexample fixture for C8: a five-residue chain, each residue with
backbone `"C"` at `(10 i, 0, 0)` and `"N"` at `(10 i, 2, 0)`. -/
def structC8 : List ResidueData :=
  [⟨1, "GLY", [⟨"C", (10, 0, 0)⟩, ⟨"N", (10, 2, 0)⟩]⟩,
   ⟨2, "GLY", [⟨"C", (20, 0, 0)⟩, ⟨"N", (20, 2, 0)⟩]⟩,
   ⟨3, "GLY", [⟨"C", (30, 0, 0)⟩, ⟨"N", (30, 2, 0)⟩]⟩,
   ⟨4, "GLY", [⟨"C", (40, 0, 0)⟩, ⟨"N", (40, 2, 0)⟩]⟩,
   ⟨5, "GLY", [⟨"C", (50, 0, 0)⟩, ⟨"N", (50, 2, 0)⟩]⟩]

/-- Counterexample fixture for C8: the substructure extracted residues
2, 3 and 4, so the severed-bond residues are 2 and 4; residue 3 is
interior. -/
def membersC8 : List ℕ := [2, 3, 4]

/-- Counterexample fixture for C8: a hydrogen appended on residue 3, half
an Ångström from residue 3's backbone carbon and far (≈ 10 Å) from every
backbone atom of the severed-bond residues 2 and 4. -/
def lineC8 : AddedAtomLine := ⟨3, (30 + 1 / 2, 0, 0)⟩

/-! ### Scheduler inputs computed from the loaded structure -/

/-- The density table `_load_molecule` computes (lines 253-267), by residue
position (the source indexes with `res.id[1] - 1`). -/
def densityAt (rs : List ResidueData) : Fin rs.length → ℚ :=
  fun i => residueDensity (structureAtoms rs) (rs.get i)

/-- The neighbour relation `_load_molecule` computes (line 249): `nearAt rs
i j` ⟺ residue `j` belongs to `self.nearest_residues[i]`. -/
def nearAt (rs : List ResidueData) : Fin rs.length → Fin rs.length → Bool :=
  fun i j => decide (rs.get j ∈ nearest_residues_of rs (rs.get i))

/-- `self.sorted_residues` for a loaded structure: the scheduler run on the
computed densities and neighbour sets. -/
def sorted_residues_of (rs : List ResidueData) : List (List (Fin rs.length)) :=
  sorted_residues (densityAt rs) (nearAt rs)

theorem mem_schedulePass {n : ℕ} {density : Fin n → ℚ} {near : Fin n → Fin n → Bool}
    {alreadySorted : Fin n → Bool} {unsorted : List (Fin n)} {r : Fin n} :
    r ∈ schedulePass density near alreadySorted unsorted ↔
      r ∈ unsorted ∧ eligible density near alreadySorted r = true :=
  List.mem_filter

/-- The density-maximum residue of a nonempty unscheduled pool is always
eligible, so no pass is empty (this is the termination argument of §4.3). -/
theorem schedulePass_ne_nil {n : ℕ} {density : Fin n → ℚ} {near : Fin n → Fin n → Bool}
    {alreadySorted : Fin n → Bool} {unsorted : List (Fin n)}
    (hinv : ∀ j, alreadySorted j = false → j ∈ unsorted) (hne : unsorted ≠ []) :
    schedulePass density near alreadySorted unsorted ≠ [] := by
  match hmx : unsorted.argmax density with
  | none => exact absurd (List.argmax_eq_none.mp hmx) hne
  | some m =>
    have hmem : m ∈ unsorted.argmax density := Option.mem_def.mpr hmx
    refine List.ne_nil_of_mem
      (mem_schedulePass.mpr ⟨List.argmax_mem hmem, decide_eq_true ?_⟩)
    intro nb _ _ hnb
    exact List.le_of_mem_argmax (hinv nb hnb) hmem

theorem contains_iff_mem {n : ℕ} (l : List (Fin n)) (a : Fin n) :
    l.contains a = true ↔ a ∈ l := by
  simp [List.contains]

theorem scheduleAux_succ {n : ℕ} (density : Fin n → ℚ) (near : Fin n → Fin n → Bool)
    (fuel : ℕ) (alreadySorted : Fin n → Bool) (unsorted : List (Fin n))
    (h : unsorted.isEmpty = false) :
    scheduleAux density near (fuel + 1) alreadySorted unsorted =
      schedulePass density near alreadySorted unsorted ::
        scheduleAux density near fuel
          (fun i => alreadySorted i ||
            (schedulePass density near alreadySorted unsorted).contains i)
          (unsorted.filter
            (fun r => !(schedulePass density near alreadySorted unsorted).contains r)) := by
  rw [scheduleAux, h]
  rfl

/-- Main inductive invariant of the peeling loop: with enough fuel, the
produced rounds are a permutation-partition of the unscheduled pool, every
round is nonempty, and a residue is placed in round `k` only when each of its
strictly denser neighbours was already marked before the loop started or was
scheduled in a round before `k`. -/
theorem scheduleAux_spec {n : ℕ} (density : Fin n → ℚ) (near : Fin n → Fin n → Bool) :
    ∀ (fuel : ℕ) (alreadySorted : Fin n → Bool) (unsorted : List (Fin n)),
      (∀ j, alreadySorted j = false ↔ j ∈ unsorted) →
      unsorted.Nodup →
      unsorted.length ≤ fuel →
      (scheduleAux density near fuel alreadySorted unsorted).flatten.Perm unsorted ∧
      (∀ round ∈ scheduleAux density near fuel alreadySorted unsorted, round ≠ []) ∧
      (∀ (k : ℕ) (hk : k < (scheduleAux density near fuel alreadySorted unsorted).length)
        (r : Fin n),
        r ∈ (scheduleAux density near fuel alreadySorted unsorted).get ⟨k, hk⟩ →
        ∀ j : Fin n, near r j = true → j ≠ r → density r < density j →
          alreadySorted j = true ∨
            j ∈ ((scheduleAux density near fuel alreadySorted unsorted).take k).flatten) := by
  intro fuel
  induction fuel with
  | zero =>
    intro alreadySorted unsorted hinv hnd hfuel
    have hnil : unsorted = [] := List.length_eq_zero.mp (Nat.le_zero.mp hfuel)
    subst hnil
    refine ⟨by simp [scheduleAux], by simp [scheduleAux], ?_⟩
    intro k hk
    simp [scheduleAux] at hk
  | succ fuel ih =>
    intro alreadySorted unsorted hinv hnd hfuel
    by_cases hemp : unsorted.isEmpty
    · have hnil : unsorted = [] := List.isEmpty_iff.mp hemp
      subst hnil
      refine ⟨by simp [scheduleAux], by simp [scheduleAux], ?_⟩
      intro k hk
      simp [scheduleAux] at hk
    · have hempF : unsorted.isEmpty = false := Bool.eq_false_iff.mpr hemp
      have hne : unsorted ≠ [] := by
        intro h
        rw [h] at hempF
        simp at hempF
      rw [scheduleAux_succ density near fuel alreadySorted unsorted hempF]
      set round := schedulePass density near alreadySorted unsorted with hround
      set s2 : Fin n → Bool := fun i => alreadySorted i || round.contains i with hs2
      set u2 : List (Fin n) := unsorted.filter (fun r => !round.contains r) with hu2
      have hpass : round ≠ [] :=
        schedulePass_ne_nil (fun j hj => (hinv j).mp hj) hne
      have hcong : u2 = unsorted.filter (fun r => !eligible density near alreadySorted r) := by
        refine List.filter_congr ?_
        intro a ha
        have hce : round.contains a = eligible density near alreadySorted a := by
          cases he : eligible density near alreadySorted a with
          | true => exact (contains_iff_mem _ _).mpr (mem_schedulePass.mpr ⟨ha, he⟩)
          | false =>
            refine Bool.eq_false_iff.mpr ?_
            intro hc
            have h2 := (mem_schedulePass.mp ((contains_iff_mem _ _).mp hc)).2
            rw [he] at h2
            exact Bool.noConfusion h2
        rw [hce]
      have hperm2 : (round ++ u2).Perm unsorted := by
        rw [hcong, hround]
        exact List.filter_append_perm _ unsorted
      have hinv2 : ∀ j, s2 j = false ↔ j ∈ u2 := by
        intro j
        rw [hs2, hu2]
        simp only [Bool.or_eq_false_iff, List.mem_filter, Bool.not_eq_true']
        rw [hinv j]
      have hnd2 : u2.Nodup := hnd.filter _
      have hlen2 : u2.length ≤ fuel := by
        have h1 : round.length + u2.length = unsorted.length := by
          have h2 := hperm2.length_eq
          simpa [List.length_append] using h2
        have h2 : 1 ≤ round.length := by
          rcases hr : round with _ | ⟨a, l⟩
          · exact absurd hr hpass
          · simp
        omega
      obtain ⟨ihPerm, ihNe, ihElig⟩ := ih s2 u2 hinv2 hnd2 hlen2
      refine ⟨?_, ?_, ?_⟩
      · refine List.Perm.trans ?_ hperm2
        simp only [List.flatten_cons]
        exact ihPerm.append_left round
      · intro rd hrd
        rcases List.mem_cons.mp hrd with h | h
        · rw [h]
          exact hpass
        · exact ihNe _ h
      · intro k hk r hr j hnear hjr hdens
        match k with
        | 0 =>
          left
          have helig : eligible density near alreadySorted r = true :=
            (mem_schedulePass.mp hr).2
          have hprop := of_decide_eq_true helig
          by_contra hfalse
          have hle : density j ≤ density r :=
            hprop j hnear hjr (Bool.not_eq_true _ ▸ hfalse)
          exact absurd hdens (not_lt.mpr hle)
        | k + 1 =>
          have hk2 : k < (scheduleAux density near fuel s2 u2).length := by
            simpa using Nat.lt_of_succ_lt_succ hk
          have hr2 : r ∈ (scheduleAux density near fuel s2 u2).get ⟨k, hk2⟩ := hr
          have hstep := ihElig k hk2 r hr2 j hnear hjr hdens
          rcases hstep with h | h
          · rw [hs2] at h
            rcases Bool.or_eq_true_iff.mp h with h | h
            · exact Or.inl h
            · right
              have hj : j ∈ round := (contains_iff_mem _ _).mp h
              simp only [List.take_succ_cons, List.flatten_cons, List.mem_append]
              exact Or.inl hj
          · right
            simp only [List.take_succ_cons, List.flatten_cons, List.mem_append]
            exact Or.inr h

theorem scheduleAux_length_le {n : ℕ} (density : Fin n → ℚ) (near : Fin n → Fin n → Bool) :
    ∀ (fuel : ℕ) (alreadySorted : Fin n → Bool) (unsorted : List (Fin n)),
      (scheduleAux density near fuel alreadySorted unsorted).length ≤ fuel := by
  intro fuel
  induction fuel with
  | zero =>
    intro s u
    simp [scheduleAux]
  | succ fuel ih =>
    intro s u
    by_cases h : u.isEmpty
    · simp [scheduleAux, h]
    · rw [scheduleAux_succ density near fuel s u (Bool.eq_false_iff.mpr h)]
      simpa using Nat.succ_le_succ (ih _ _)

/-- Claim C1: for every input (density table and neighbour relation over the
residues), the round plan partitions the residues — every residue appears in
exactly one round — and a residue is placed in round `k` only if every
neighbour of it (excluding itself) with a strictly greater density score was
already scheduled in one of the rounds before `k` (that is, no strictly
denser neighbour was still unscheduled when round `k` was formed). -/
theorem claim_C1_round_plan_partition {n : ℕ} (density : Fin n → ℚ)
    (near : Fin n → Fin n → Bool) :
    (∀ r : Fin n, (sorted_residues density near).flatten.count r = 1) ∧
    (∀ (k : ℕ) (hk : k < (sorted_residues density near).length) (r : Fin n),
      r ∈ (sorted_residues density near).get ⟨k, hk⟩ →
      ∀ j : Fin n, near r j = true → j ≠ r → density r < density j →
        j ∈ ((sorted_residues density near).take k).flatten) := by
  unfold sorted_residues
  obtain ⟨hPerm, hNe, hElig⟩ := scheduleAux_spec density near n (fun _ => false)
    (List.finRange n) (by simp) (List.nodup_finRange n) (by simp)
  constructor
  · intro r
    rw [hPerm.count_eq]
    exact List.count_eq_one_of_mem (List.nodup_finRange n) (List.mem_finRange r)
  · intro k hk r hr j hnear hjr hdens
    rcases hElig k hk r hr j hnear hjr hdens with h | h
    · exact absurd h (by simp)
    · exact h

/-- Claim C2: the peeling loop, given fuel `n` (the residue count), produces
at most `n` rounds, schedules every residue (the flattened plan is a
permutation of all residues, so the loop terminates with an empty pool
within `n` passes), every produced round is nonempty, and — the reason for
termination — a pass over a nonempty pool always schedules at least one
residue, since a density-maximum unscheduled residue is always eligible. -/
theorem claim_C2_scheduler_termination {n : ℕ} (density : Fin n → ℚ)
    (near : Fin n → Fin n → Bool) :
    (sorted_residues density near).length ≤ n ∧
    (sorted_residues density near).flatten.Perm (List.finRange n) ∧
    (∀ round ∈ sorted_residues density near, round ≠ []) ∧
    (∀ (alreadySorted : Fin n → Bool) (unsorted : List (Fin n)),
      (∀ j, alreadySorted j = false → j ∈ unsorted) → unsorted ≠ [] →
      schedulePass density near alreadySorted unsorted ≠ []) := by
  unfold sorted_residues
  obtain ⟨hPerm, hNe, _⟩ := scheduleAux_spec density near n (fun _ => false)
    (List.finRange n) (by simp) (List.nodup_finRange n) (by simp)
  exact ⟨scheduleAux_length_le density near n _ _, hPerm, hNe,
    fun s u hinv hne => schedulePass_ne_nil hinv hne⟩

/-- Witness for C1: on the two-residue fixture the plan is `[[0], [1]]`;
residue 1 appears exactly once, and its denser neighbour 0 is scheduled in
an earlier round. -/
theorem claim_C1_witness :
    ((sorted_residues densW nearW).flatten.count (1 : Fin 2) = 1) ∧
    (0 : Fin 2) ∈ ((sorted_residues densW nearW).take 1).flatten := by
  constructor
  · exact (claim_C1_round_plan_partition densW nearW).1 (1 : Fin 2)
  · exact (claim_C1_round_plan_partition densW nearW).2 1 (by decide) (1 : Fin 2)
      (by decide) (0 : Fin 2) (by decide) (by decide) (by decide)

/-- Witness for C2: on the two-residue fixture the plan has at most two
rounds and the first pass over the full pool is nonempty. -/
theorem claim_C2_witness :
    (sorted_residues densW nearW).length ≤ 2 ∧
    schedulePass densW nearW (fun _ => false) [0, 1] ≠ [] := by
  constructor
  · exact (claim_C2_scheduler_termination densW nearW).1
  · exact (claim_C2_scheduler_termination densW nearW).2.2.2 (fun _ => false) [0, 1]
      (by decide) (by decide)

/-- Counterexample to C6: on a single-atom alanine structure every shell
count is 1, so a weighted sum of atom counts with weights 1, 1/10, 1/20
would be 1.15, but the source divides each count by a nominal shell volume
before weighting, and the computed score differs. -/
theorem claim_C6_counterexample :
    residueDensity (structureAtoms structC6) resC6 ≠
      specDensityScore (structureAtoms structC6) resC6 := by
  norm_num [residueDensity, specDensityScore, structureAtoms, structC6, resC6,
    atomsWithin, center_of_mass, amk_radius, shellVolume, sqDist, List.filter]

/-- Amended C6: each entry of `self.density_of_atoms_around_residues` is a
weighted sum of atom *densities*, not raw counts: for each of three
concentric balls around the residue's geometric centre the atom count
(counting radii `r+2`, `r+5`, `r+10` for characteristic radius `r`) is
divided by a nominal volume `(4/3)*3.14*R^3` taken at a different radius
(`R` = `r+3`, `r+10`, `r+15` respectively), and the three densities are
combined with weights 1, 1/10, 1/20. -/
theorem claim_C6_amended (rs : List ResidueData) :
    density_of_atoms_around_residues rs = rs.map (fun res =>
      ((atomsWithin (structureAtoms rs) (center_of_mass res.atoms)
          (amk_radius res.resname + 2)).length : ℚ)
        / ((4 / 3) * 3.14 * (amk_radius res.resname + 3) ^ 3)
      + (((atomsWithin (structureAtoms rs) (center_of_mass res.atoms)
          (amk_radius res.resname + 5)).length : ℚ)
        / ((4 / 3) * 3.14 * (amk_radius res.resname + 10) ^ 3)) / 10
      + (((atomsWithin (structureAtoms rs) (center_of_mass res.atoms)
          (amk_radius res.resname + 10)).length : ℚ)
        / ((4 / 3) * 3.14 * (amk_radius res.resname + 15) ^ 3)) / 20) := by
  rfl

/-- Counterexample to C7: with the code's radius `amk_radius["ALA"] + 10`
(≈ 12.48 Å), the second residue is within 1 Å of a query atom — so the
all-pairs-minimum query of the claim returns it — but all of its atoms are
≈ 50 Å from the query residue's geometric centre, so the code's
centroid-based search does not return it. -/
theorem claim_C7_counterexample :
    otherResC7 ∈ specResiduesNear structC7 qResC7 (amk_radius "ALA" + 10) ∧
    otherResC7 ∉ nearest_residues_of structC7 qResC7 := by
  constructor
  · norm_num [specResiduesNear, structC7, qResC7, otherResC7, sqDist, List.filter,
      amk_radius]
  · norm_num [nearest_residues_of, residuesWithin, structC7, qResC7, otherResC7,
      sqDist, List.filter, amk_radius, center_of_mass]

/-- Amended C7: the residue-level neighbour query returns exactly the
residues having at least one atom within the radius of the *geometric
centre* of the query residue (centroid-to-atom distance, not the all-pairs
atom minimum). -/
theorem claim_C7_amended (rs : List ResidueData) (query res : ResidueData) :
    res ∈ nearest_residues_of rs query ↔
      res ∈ rs ∧ ∃ a ∈ res.atoms,
        sqDist a.coord (center_of_mass query.atoms) ≤
          (amk_radius query.resname + 10) ^ 2 := by
  unfold nearest_residues_of residuesWithin
  rw [List.mem_filter]
  simp [List.any_eq_true]

theorem atomLoop_fst (targetAtoms : List Point) :
    ∀ (atoms : List AtomData) (counter : ℕ),
      (atomLoop targetAtoms atoms counter).1 =
        atoms.filter (isConstrained targetAtoms) := by
  intro atoms
  induction atoms with
  | nil => intro counter; rfl
  | cons a rest ih =>
    intro counter
    by_cases h : isConstrained targetAtoms a
    · simp [atomLoop, h, ih]
    · simp [atomLoop, h, ih]

theorem residueLoop_members (targetAtoms : List Point) :
    ∀ (l : List ResidueData) (counter : ℕ),
      (residueLoop targetAtoms l counter).1 =
        (l.filter (closeToTarget targetAtoms)).map
          (fun res => ⟨res.index, res.atoms.filter (isConstrained targetAtoms)⟩) := by
  intro l
  induction l with
  | nil => intro c; rfl
  | cons res rest ih =>
    intro c
    by_cases h : closeToTarget targetAtoms res
    · simp [residueLoop, h, ih, atomLoop_fst, List.filter_cons]
    · simp [residueLoop, h, ih, List.filter_cons]

theorem residueLoop_skip (targetAtoms : List Point) :
    ∀ (l : List ResidueData) (counter : ℕ),
      residueLoop targetAtoms (l.filter (closeToTarget targetAtoms)) counter =
        residueLoop targetAtoms l counter := by
  intro l
  induction l with
  | nil => intro c; rfl
  | cons res rest ih =>
    intro c
    by_cases h : closeToTarget targetAtoms res
    · simp [List.filter_cons, h, residueLoop, ih]
    · simp [List.filter_cons, h, residueLoop, ih]

/-- Claim C3: inside the substructure builder, an atom of a member residue
is placed in the constrained set if and only if it is an alpha-carbon
(atom name `"CA"`) or its minimum distance to the target residue's atom set
exceeds the 4 Å cutoff (squared comparison `4^2 < minSqDistTo`); the
constrained set and the free set partition the member residue's atoms — no
atom is in both, and none is in neither. -/
theorem claim_C3_constrained_partition (targetAtoms : List Point) (res : ResidueData)
    (counter : ℕ) :
    (∀ a : AtomData, a ∈ (atomLoop targetAtoms res.atoms counter).1 ↔
      a ∈ res.atoms ∧ (a.name = "CA" ∨ (4 : ℚ) ^ 2 < minSqDistTo targetAtoms a.coord)) ∧
    (∀ a ∈ res.atoms,
      (a ∈ (atomLoop targetAtoms res.atoms counter).1 ∧ a ∉ free_atoms targetAtoms res) ∨
      (a ∈ free_atoms targetAtoms res ∧ a ∉ (atomLoop targetAtoms res.atoms counter).1)) := by
  rw [atomLoop_fst]
  constructor
  · intro a
    rw [List.mem_filter]
    simp [isConstrained]
  · intro a ha
    by_cases h : isConstrained targetAtoms a = true
    · left
      refine ⟨List.mem_filter.mpr ⟨ha, h⟩, ?_⟩
      rw [free_atoms, List.mem_filter]
      rintro ⟨-, hb⟩
      rw [h] at hb
      exact Bool.noConfusion hb
    · right
      have hf : isConstrained targetAtoms a = false := Bool.not_eq_true _ ▸ h
      refine ⟨List.mem_filter.mpr ⟨ha, by rw [hf]; rfl⟩, ?_⟩
      rw [List.mem_filter]
      rintro ⟨-, hb⟩
      rw [hf] at hb
      exact Bool.noConfusion hb

/-- Witness for C3: the distant `"O"` atom is constrained and the nearby
`"CB"` atom is free. -/
theorem claim_C3_witness :
    (⟨"O", (10, 0, 0)⟩ : AtomData) ∈ (atomLoop targetW resW.atoms 1).1 ∧
    (⟨"CB", (0, 1, 0)⟩ : AtomData) ∈ free_atoms targetW resW := by
  have h := claim_C3_constrained_partition targetW resW 1
  constructor
  · exact (h.1 ⟨"O", (10, 0, 0)⟩).mpr
      ⟨by simp [resW], Or.inr (by norm_num [minSqDistTo, targetW, sqDist])⟩
  · rcases h.2 ⟨"CB", (0, 1, 0)⟩ (by simp [resW]) with ⟨hc, -⟩ | ⟨hf, -⟩
    · exfalso
      rcases (h.1 _).mp hc with ⟨-, hca | hd⟩
      · simp at hca
      · norm_num [minSqDistTo, targetW, sqDist] at hd
    · exact hf

/-- Claim C10: a residue of the precomputed neighbour set becomes a member
of the substructure iff its overall minimum atom distance to the target is
strictly below 6 Å (`closeToTarget` is the squared comparison
`absMinSqDist < 6^2`); the members are processed in residue-index-sorted
order (the member list is pairwise sorted by index, and the sort is a
permutation of the neighbour set); and neighbour residues failing the 6 Å
filter contribute nothing: running the loop on only the passing residues
yields the same members, constraint indices and atom counter. -/
theorem claim_C10_member_selection (target : ResidueData) (near : List ResidueData) :
    ((substructure target near).1 =
      ((sortResidues near).filter (closeToTarget (target.atoms.map (fun a => a.coord)))).map
        (fun res => ⟨res.index, res.atoms.filter
          (isConstrained (target.atoms.map (fun a => a.coord)))⟩)) ∧
    List.Pairwise (fun a b : Residue => a.index ≤ b.index) (substructure target near).1 ∧
    (residueLoop (target.atoms.map (fun a => a.coord))
        ((sortResidues near).filter (closeToTarget (target.atoms.map (fun a => a.coord)))) 1 =
      residueLoop (target.atoms.map (fun a => a.coord)) (sortResidues near) 1) ∧
    (sortResidues near).Perm near := by
  have hs : List.Sorted (fun a b : ResidueData => a.index ≤ b.index) (sortResidues near) := by
    haveI : IsTotal ResidueData (fun a b => a.index ≤ b.index) :=
      ⟨fun a b => Nat.le_total a.index b.index⟩
    haveI : IsTrans ResidueData (fun a b => a.index ≤ b.index) :=
      ⟨fun a b c hab hbc => Nat.le_trans hab hbc⟩
    exact List.sorted_insertionSort _ near
  refine ⟨residueLoop_members _ _ 1, ?_, residueLoop_skip _ _ 1, List.perm_insertionSort _ near⟩
  rw [substructure, residueLoop_members]
  exact List.Pairwise.map _ (fun a b h => h) (hs.filter _)

theorem pyReplaceAux_fuel (pat rep : List Char) :
    ∀ (fuel fuel2 : ℕ) (s : List Char), s.length ≤ fuel → s.length ≤ fuel2 →
      pyReplaceAux pat rep fuel s = pyReplaceAux pat rep fuel2 s := by
  intro fuel
  induction fuel with
  | zero =>
    intro fuel2 s h1 h2
    have hs : s = [] := List.length_eq_zero.mp (Nat.le_zero.mp h1)
    subst hs
    cases fuel2 <;> rfl
  | succ fuel ih =>
    intro fuel2 s h1 h2
    match fuel2, s with
    | 0, s =>
      have hs : s = [] := List.length_eq_zero.mp (Nat.le_zero.mp h2)
      subst hs
      rfl
    | fuel2 + 1, [] => rfl
    | fuel2 + 1, c :: rest =>
      have hr : rest.length ≤ fuel := by
        simp only [List.length_cons] at h1
        omega
      have hr2 : rest.length ≤ fuel2 := by
        simp only [List.length_cons] at h2
        omega
      have hd : (rest.drop (pat.length - 1)).length ≤ rest.length := by
        rw [List.length_drop]
        omega
      simp only [pyReplaceAux]
      by_cases h : pat ≠ [] ∧ pat.isPrefixOf (c :: rest)
      · rw [if_pos h, if_pos h]
        rw [ih fuel2 (rest.drop (pat.length - 1)) (le_trans hd hr) (le_trans hd hr2)]
      · rw [if_neg h, if_neg h]
        rw [ih fuel2 rest hr hr2]

theorem pyReplace_cons_match (pat rep : List Char) (c : Char) (rest : List Char)
    (hne : pat ≠ []) (hpre : pat.isPrefixOf (c :: rest) = true) :
    pyReplace pat rep (c :: rest) =
      rep ++ pyReplace pat rep (rest.drop (pat.length - 1)) := by
  show pyReplaceAux pat rep (rest.length + 1) (c :: rest) = _
  simp only [pyReplaceAux]
  rw [if_pos ⟨hne, hpre⟩]
  rw [pyReplaceAux_fuel pat rep rest.length (rest.drop (pat.length - 1)).length
    (rest.drop (pat.length - 1)) (by rw [List.length_drop]; omega) (le_refl _)]
  rfl

theorem pyReplace_cons_nomatch (pat rep : List Char) (c : Char) (rest : List Char)
    (h : ¬(pat ≠ [] ∧ pat.isPrefixOf (c :: rest) = true)) :
    pyReplace pat rep (c :: rest) = c :: pyReplace pat rep rest := by
  show pyReplaceAux pat rep (rest.length + 1) (c :: rest) = _
  simp only [pyReplaceAux]
  rw [if_neg h]
  rfl

theorem isPrefixOf_append_self : ∀ (p B : List Char), p.isPrefixOf (p ++ B) = true := by
  intro p
  induction p with
  | nil => intro B; cases B <;> rfl
  | cons a as ih =>
    intro B
    show (a == a && as.isPrefixOf (as ++ B)) = true
    rw [ih B]
    simp

theorem isPrefixOf_cons_ne (p0 : Char) (pt : List Char) (c : Char) (xs : List Char)
    (h : c ≠ p0) : (p0 :: pt).isPrefixOf (c :: xs) = false := by
  simp only [List.isPrefixOf, Bool.and_eq_false_iff]
  left
  simp [Ne.symm h]

/-- Replacement walks over a region free of the pattern's first character:
the first occurrence of the pattern is matched and replaced, and scanning
continues after it. -/
theorem pyReplace_append_head (p0 : Char) (pt rep B : List Char) :
    ∀ A : List Char, (∀ c ∈ A, c ≠ p0) →
      pyReplace (p0 :: pt) rep (A ++ (p0 :: pt) ++ B) =
        A ++ rep ++ pyReplace (p0 :: pt) rep B := by
  intro A
  induction A with
  | nil =>
    intro _
    simp only [List.nil_append, List.cons_append]
    rw [pyReplace_cons_match (p0 :: pt) rep p0 (pt ++ B) (by simp)
      (isPrefixOf_append_self (p0 :: pt) B)]
    simp only [List.length_cons, Nat.add_sub_cancel]
    rw [show pt ++ B = (pt ++ B) from rfl, List.drop_left]
  | cons a A2 ih =>
    intro hA
    have ha : a ≠ p0 := hA a (List.mem_cons_self a A2)
    rw [show (a :: A2) ++ (p0 :: pt) ++ B = a :: (A2 ++ (p0 :: pt) ++ B) by simp]
    rw [pyReplace_cons_nomatch]
    · rw [ih (fun c hc => hA c (List.mem_cons_of_mem a hc))]
      simp
    · rintro ⟨-, hp⟩
      rw [isPrefixOf_cons_ne p0 pt a _ ha] at hp
      exact Bool.noConfusion hp

/-- Replacement is the identity on a string free of the pattern's first
character. -/
theorem pyReplace_eq_self_head (p0 : Char) (pt rep : List Char) :
    ∀ B : List Char, (∀ c ∈ B, c ≠ p0) → pyReplace (p0 :: pt) rep B = B := by
  intro B
  induction B with
  | nil => intro _; rfl
  | cons b B2 ih =>
    intro hB
    rw [pyReplace_cons_nomatch]
    · rw [ih (fun c hc => hB c (List.mem_cons_of_mem b hc))]
    · rintro ⟨-, hp⟩
      rw [isPrefixOf_cons_ne p0 pt b _ (hB b (List.mem_cons_self b B2))] at hp
      exact Bool.noConfusion hp

theorem hasRF_tail (c : Char) (l : List Char) (h : hasRF (c :: l) = false) :
    hasRF l = false := by
  cases l with
  | nil => rfl
  | cons c2 r =>
    have h2 : ((c == 'r' && c2 == 'f') || hasRF (c2 :: r)) = false := h
    exact (Bool.or_eq_false_iff.mp h2).2

theorem hasRF_cons_pair (c c2 : Char) (r : List Char)
    (h : hasRF (c :: c2 :: r) = false) : (c == 'r' && c2 == 'f') = false := by
  have h2 : ((c == 'r' && c2 == 'f') || hasRF (c2 :: r)) = false := h
  exact (Bool.or_eq_false_iff.mp h2).1

theorem hasRF_of_no_r : ∀ l : List Char, (∀ c ∈ l, c ≠ 'r') → hasRF l = false := by
  intro l
  induction l with
  | nil => intro _; rfl
  | cons c rest ih =>
    intro h
    cases rest with
    | nil => rfl
    | cons c2 r2 =>
      show ((c == 'r' && c2 == 'f') || hasRF (c2 :: r2)) = false
      rw [Bool.or_eq_false_iff]
      constructor
      · have := h c (List.mem_cons_self c _)
        simp [this]
      · exact ih (fun a ha => h a (List.mem_cons_of_mem c ha))

theorem hasRF_append : ∀ (X Y : List Char), hasRF X = false → hasRF Y = false →
    (X.getLast? ≠ some 'r' ∨ Y.head? ≠ some 'f') → hasRF (X ++ Y) = false := by
  intro X
  induction X with
  | nil =>
    intro Y _ hY _
    simpa using hY
  | cons c X2 ih =>
    cases X2 with
    | nil =>
      intro Y hX hY hb
      cases Y with
      | nil => rfl
      | cons cy Y2 =>
        show ((c == 'r' && cy == 'f') || hasRF (cy :: Y2)) = false
        rw [Bool.or_eq_false_iff]
        refine ⟨?_, hY⟩
        rcases hb with h | h
        · have hc : c ≠ 'r' := by simpa using h
          simp [hc]
        · have hc : cy ≠ 'f' := by simpa using h
          simp [hc]
    | cons c2 X3 =>
      intro Y hX hY hb
      show ((c == 'r' && c2 == 'f') || hasRF ((c2 :: X3) ++ Y)) = false
      rw [Bool.or_eq_false_iff]
      refine ⟨hasRF_cons_pair c c2 X3 hX, ?_⟩
      refine ih Y (hasRF_tail c (c2 :: X3) hX) hY ?_
      rcases hb with h | h
      · left
        rw [List.getLast?_cons_cons] at h
        exact h
      · exact Or.inr h

theorem digitChar_ne_r (d : ℕ) : digitChar d ≠ 'r' := by
  match d with
  | 0 | 1 | 2 | 3 | 4 | 5 | 6 | 7 | 8 => decide
  | d + 9 =>
    show ('9' : Char) ≠ 'r'
    decide

theorem natCharsAux_ne_r : ∀ (fuel n : ℕ), ∀ c ∈ natCharsAux fuel n, c ≠ 'r' := by
  intro fuel
  induction fuel with
  | zero =>
    intro n c hc
    simp [natCharsAux] at hc
  | succ fuel ih =>
    intro n c hc
    by_cases h : n < 10
    · simp only [natCharsAux, if_pos h, List.mem_singleton] at hc
      subst hc
      exact digitChar_ne_r n
    · simp only [natCharsAux, if_neg h, List.mem_append, List.mem_singleton] at hc
      rcases hc with hc | hc
      · exact ih (n / 10) c hc
      · subst hc
        exact digitChar_ne_r (n % 10)

theorem natChars_ne_r (n : ℕ) : ∀ c ∈ natChars n, c ≠ 'r' :=
  natCharsAux_ne_r (n + 1) n

theorem commaJoin_ne_r : ∀ l : List ℕ, ∀ c ∈ commaJoin l, c ≠ 'r' := by
  intro l
  induction l with
  | nil =>
    intro c hc
    simp [commaJoin] at hc
  | cons i rest ih =>
    intro c hc
    cases rest with
    | nil =>
      rw [show commaJoin [i] = natChars i from rfl] at hc
      exact natChars_ne_r i c hc
    | cons j rest2 =>
      rw [show commaJoin (i :: j :: rest2) =
        natChars i ++ [',', ' '] ++ commaJoin (j :: rest2) from rfl] at hc
      simp only [List.mem_append] at hc
      rcases hc with (hc | hc) | hc
      · exact natChars_ne_r i c hc
      · have hcs : c = ',' ∨ c = ' ' := by simpa using hc
        rcases hcs with h | h <;> (subst h; decide)
      · exact ih c hc

theorem constrained_indices_line_ne_r (cidx hidx : List ℕ) :
    ∀ c ∈ constrained_indices_line cidx hidx, c ≠ 'r' := by
  intro c hc
  simp only [constrained_indices_line, List.mem_append] at hc
  rcases hc with (hc | hc) | hc
  · exact commaJoin_ne_r cidx c hc
  · have hcs : c = ',' ∨ c = ' ' := by simpa using hc
    rcases hcs with h | h <;> (subst h; decide)
  · exact commaJoin_ne_r hidx c hc

theorem substructure_settings_eq (cidx hidx : List ℕ) :
    substructure_settings cidx hidx =
      settingsWithEngine cidx hidx ('r' :: 'f' :: []) := by
  unfold substructure_settings settingsWithEngine
  have htempl : xtb_settings_template =
      settingsPartA ++ ('x' :: 'x' :: 'x' :: []) ++
        (settingsPartB ++ ('r' :: 'f' :: []) ++ settingsPartC) := by decide
  rw [htempl]
  rw [pyReplace_append_head 'x' ['x', 'x'] (constrained_indices_line cidx hidx)
    (settingsPartB ++ ('r' :: 'f' :: []) ++ settingsPartC) settingsPartA (by decide)]
  rw [pyReplace_eq_self_head 'x' ['x', 'x'] (constrained_indices_line cidx hidx)
    (settingsPartB ++ ('r' :: 'f' :: []) ++ settingsPartC) (by decide)]
  simp [List.append_assoc]

/-- Walking the `"rf" → "lbfgs"` replacement across an `rf`-free region. -/
theorem pyReplace_rf_decomp (rep : List Char) :
    ∀ (A B : List Char), hasRF A = false →
      pyReplace ('r' :: 'f' :: []) rep (A ++ ('r' :: 'f' :: B)) =
        A ++ rep ++ pyReplace ('r' :: 'f' :: []) rep B := by
  intro A
  induction A with
  | nil =>
    intro B _
    simp only [List.nil_append]
    rw [pyReplace_cons_match ('r' :: 'f' :: []) rep 'r' ('f' :: B) (by simp)
      (by simp [List.isPrefixOf])]
    simp
  | cons a A2 ih =>
    intro B hA
    rw [show (a :: A2) ++ ('r' :: 'f' :: B) = a :: (A2 ++ ('r' :: 'f' :: B)) from rfl]
    rw [pyReplace_cons_nomatch]
    · rw [ih B (hasRF_tail a A2 hA)]
      simp
    · rintro ⟨-, hp⟩
      cases A2 with
      | nil =>
        simp [List.isPrefixOf] at hp
      | cons a2 A3 =>
        simp only [List.cons_append, List.isPrefixOf, Bool.and_eq_true, beq_iff_eq] at hp
        obtain ⟨ha, ha2, -⟩ := hp
        have hpair := hasRF_cons_pair a a2 A3 hA
        rw [← ha, ← ha2] at hpair
        simp at hpair

/-- Line 131: rewriting the settings file with `.replace("rf", "lbfgs")`
switches the optimisation engine and changes nothing else (the generated
content — digits, commas, spaces and the fixed template text — contains no
other occurrence of `"rf"`). -/
theorem retry_settings_swap (cidx hidx : List ℕ) :
    pyReplace ('r' :: 'f' :: []) ("lbfgs".toList) (substructure_settings cidx hidx) =
      settingsWithEngine cidx hidx ("lbfgs".toList) := by
  rw [substructure_settings_eq]
  have hshape : settingsWithEngine cidx hidx ('r' :: 'f' :: []) =
      (settingsPartA ++ (constrained_indices_line cidx hidx ++ settingsPartB)) ++
        ('r' :: 'f' :: settingsPartC) := by
    simp [settingsWithEngine, List.append_assoc]
  rw [hshape]
  have hfreeA : hasRF (settingsPartA ++ (constrained_indices_line cidx hidx ++
      settingsPartB)) = false := by
    refine hasRF_append _ _ (by decide) ?_ (Or.inl (by decide))
    refine hasRF_append _ _ ?_ (by decide) (Or.inr (by decide))
    exact hasRF_of_no_r _ (constrained_indices_line_ne_r cidx hidx)
  rw [pyReplace_rf_decomp ("lbfgs".toList) _ settingsPartC hfreeA]
  rw [show pyReplace ('r' :: 'f' :: []) ("lbfgs".toList) settingsPartC =
    settingsPartC by decide]
  simp [settingsWithEngine, List.append_assoc]

/-- Claim C5: the settings are generated with engine `rf`; if the success
artifact is absent after the first invocation, exactly one retry runs with
the settings rewritten by `replace("rf", "lbfgs")` — which equals the same
settings with only the engine switched to `lbfgs`, everything else
identical — and if the artifact is still absent the substructure is marked
not-optimised (`"Not optimised residue"`) with a `None` payload, and no
further invocation happens (at most two in every case). -/
theorem claim_C5_retry_policy (produces : List Char → Bool) (cidx hidx : List ℕ)
    (subs : List Residue) :
    (substructure_settings cidx hidx = settingsWithEngine cidx hidx ('r' :: 'f' :: [])) ∧
    (runOptimisation produces (substructure_settings cidx hidx)).invocations ≤ 2 ∧
    (produces (substructure_settings cidx hidx) = false →
      (runOptimisation produces (substructure_settings cidx hidx)).invocations = 2 ∧
      (runOptimisation produces (substructure_settings cidx hidx)).finalSettings =
        settingsWithEngine cidx hidx ("lbfgs".toList)) ∧
    ((runOptimisation produces (substructure_settings cidx hidx)).artifact = false →
      categoryOf (runOptimisation produces (substructure_settings cidx hidx)).artifact =
        "Not optimised residue" ∧
      resultOf (runOptimisation produces (substructure_settings cidx hidx)).artifact subs =
        none) := by
  refine ⟨substructure_settings_eq cidx hidx, ?_, ?_, ?_⟩
  · by_cases h : produces (substructure_settings cidx hidx) <;>
      simp [runOptimisation, h]
  · intro h
    refine ⟨by simp [runOptimisation, h], ?_⟩
    simp only [runOptimisation, h, Bool.false_eq_true, if_false]
    exact retry_settings_swap cidx hidx
  · intro h
    rw [h]
    exact ⟨rfl, rfl⟩

/-- Witness for C5: with an always-failing optimiser and constrained
indices 1, 2 and hydrogen index 3, the run makes exactly two invocations,
ends with the `lbfgs` settings, and reports `"Not optimised residue"`. -/
theorem claim_C5_witness :
    (runOptimisation (fun _ => false) (substructure_settings [1, 2] [3])).invocations = 2 ∧
    (runOptimisation (fun _ => false) (substructure_settings [1, 2] [3])).finalSettings =
      settingsWithEngine [1, 2] [3] ("lbfgs".toList) ∧
    categoryOf
      (runOptimisation (fun _ => false) (substructure_settings [1, 2] [3])).artifact =
      "Not optimised residue" := by
  have h := claim_C5_retry_policy (fun _ => false) [1, 2] [3] []
  exact ⟨(h.2.2.1 rfl).1, (h.2.2.1 rfl).2, (h.2.2.2 rfl).1⟩

/-- Claim C9 (code bug): the source classifies a produced result only by
the artifact's existence — `"Optimised residue"` whenever `xtbopt.pdb`
exists, `"Not optimised residue"` otherwise.  No residual deviation is
computed anywhere (the source carries the TODO comment `# doplnit rmsd,
případně upravit category` — "add rmsd, possibly adjust the category"), so
no input can ever be classified `"highly-optimized"`: a substructure whose
target residue moved by 1.5 Å is still logged `"Optimised residue"`. -/
theorem claim_C9_no_residual_classification :
    categoryOf true = "Optimised residue" ∧
    categoryOf false = "Not optimised residue" ∧
    ∀ b : Bool, categoryOf b ≠ "highly-optimized" := by
  refine ⟨rfl, rfl, ?_⟩
  intro b
  cases b <;> simp [categoryOf]

/-- Counterexample to C4: residue 1 is logged `"Not optimised residue"`
(its optimiser produced no artifact even after the retry), yet its
coordinates in the shared structure change — the successful substructure of
residue 2 contains residue 1 as a member and writes it back. -/
theorem claim_C4_counterexample :
    (processRound structC4 resultsC4).1.map (fun l => l.category) =
      ["Not optimised residue", "Optimised residue"] ∧
    (processRound structC4 resultsC4).2.getD 0 [] ≠ structC4.getD 0 [] := by
  constructor
  · rfl
  · intro h
    have h2 : ((1 : ℚ), (1 : ℚ), (1 : ℚ)) = ((0 : ℚ), (0 : ℚ), (0 : ℚ)) := by
      have h3 : (processRound structC4 resultsC4).2.getD 0 [] = [(1, 1, 1)] := rfl
      have h4 : structC4.getD 0 [] = [(0, 0, 0)] := rfl
      rw [h3, h4] at h
      exact List.head_eq_of_cons_eq h
    have h5 : (1 : ℚ) = 0 := congrArg Prod.fst h2
    norm_num at h5

/-- Amended C4: a substructure that failed both attempts is logged with
category `"Not optimised residue"` (the code's rendering of the spec's
`not-optimized`; the log record has no residual field at all), its own
`None` payload writes nothing back, and the run continues — every queued
result still contributes exactly one log entry.  The failed residue's
coordinates are, however, not guaranteed to stay unmodified: a successful
substructure of a neighbouring residue that contains it as a member may
still update them (see the counterexample). -/
theorem claim_C4_amended (st : List (List Point))
    (results : List (LogEntry × Option (List OptimisedResidue)))
    (artifact : Bool) (subs : List OptimisedResidue) :
    commitResult st none = st ∧
    (processRound st results).1.length = results.length ∧
    (artifact = false →
      categoryOf artifact = "Not optimised residue" ∧
      resultOf artifact subs = none ∧
      commitResult st (resultOf artifact subs) = st) := by
  refine ⟨rfl, by simp [processRound], ?_⟩
  intro h
  subst h
  exact ⟨rfl, rfl, rfl⟩

/-- Witness for C4 (amended): on the two-residue fixture, a failed task's
own commit is the identity and its category is `"Not optimised residue"`. -/
theorem claim_C4_witness :
    commitResult structC4 none = structC4 ∧
    categoryOf false = "Not optimised residue" ∧
    commitResult structC4 (resultOf false ([] : List OptimisedResidue)) = structC4 := by
  have h := claim_C4_amended structC4 [] false []
  exact ⟨h.1, (h.2.2 rfl).1, (h.2.2 rfl).2.2⟩

theorem repairLoop_fst (rs : List ResidueData) :
    ∀ (added : List AddedAtomLine) (counter : ℕ),
      (repairLoop rs added counter).1 = added.filter (retainHydrogen rs) := by
  intro added
  induction added with
  | nil => intro c; rfl
  | cons line rest ih =>
    intro c
    by_cases h : retainHydrogen rs line
    · simp [repairLoop, h, ih, List.filter_cons]
    · simp [repairLoop, h, ih, List.filter_cons]

/-- Counterexample to C8: the hydrogen of `lineC8` is at distance ≥ 1.1 Å
from every backbone C/N atom of every severed-bond residue, so the claim
says it is discarded — but the code retains it, because the code only
checks the hydrogen's own residue's backbone C and N. -/
theorem claim_C8_counterexample :
    retainHydrogen structC8 lineC8 = true ∧
    severedResidues membersC8 (structC8.map (fun r => r.index)) = [2, 4] ∧
    (∀ i ∈ severedResidues membersC8 (structC8.map (fun r => r.index)),
      (1.1 : ℚ) ^ 2 ≤ sqDist lineC8.coord (atomCoord structC8 i "C") ∧
      (1.1 : ℚ) ^ 2 ≤ sqDist lineC8.coord (atomCoord structC8 i "N")) := by
  have hsev : severedResidues membersC8 (structC8.map (fun r => r.index)) = [2, 4] := by
    decide
  have h2C : atomCoord structC8 2 "C" = (20, 0, 0) := rfl
  have h2N : atomCoord structC8 2 "N" = (20, 2, 0) := rfl
  have h4C : atomCoord structC8 4 "C" = (40, 0, 0) := rfl
  have h4N : atomCoord structC8 4 "N" = (40, 2, 0) := rfl
  have h3C : atomCoord structC8 3 "C" = (30, 0, 0) := rfl
  refine ⟨?_, hsev, ?_⟩
  · rw [retainHydrogen]
    have : sqDist lineC8.coord (atomCoord structC8 lineC8.resIndex "C") < (1.1 : ℚ) ^ 2 := by
      rw [show lineC8.resIndex = 3 from rfl, h3C]
      norm_num [lineC8, sqDist]
    simp [this]
  · rw [hsev]
    intro i hi
    have hcases : i = 2 ∨ i = 4 := by simpa using hi
    rcases hcases with h | h <;> subst h
    · constructor
      · rw [h2C]
        norm_num [lineC8, sqDist]
      · rw [h2N]
        norm_num [lineC8, sqDist]
    · constructor
      · rw [h4C]
        norm_num [lineC8, sqDist]
      · rw [h4N]
        norm_num [lineC8, sqDist]

/-- Amended C8: an added hydrogen is retained iff its position is within
1.1 Å of the backbone carbon or the backbone nitrogen of *its own* residue
(the residue number on its atom line), looked up in the full input
structure; the repair loop keeps exactly the retained lines, in order.
Whether any residue's peptide bond was severed by the extraction plays no
role. -/
theorem claim_C8_amended (rs : List ResidueData) (added : List AddedAtomLine)
    (counter : ℕ) :
    ((repairLoop rs added counter).1 = added.filter (retainHydrogen rs)) ∧
    (∀ line : AddedAtomLine, retainHydrogen rs line = true ↔
      (sqDist line.coord (atomCoord rs line.resIndex "C") < (1.1 : ℚ) ^ 2 ∨
       sqDist line.coord (atomCoord rs line.resIndex "N") < (1.1 : ℚ) ^ 2)) := by
  refine ⟨repairLoop_fst rs added counter, ?_⟩
  intro line
  simp [retainHydrogen]

/-- The scheduler instantiated with the geometric densities and neighbour
sets of a loaded structure: the round plan schedules every residue exactly
once, within at most `N` rounds. -/
theorem sorted_residues_of_partition (rs : List ResidueData) :
    (∀ r : Fin rs.length, (sorted_residues_of rs).flatten.count r = 1) ∧
    (sorted_residues_of rs).length ≤ rs.length := by
  obtain ⟨hPerm, -, -⟩ := scheduleAux_spec (densityAt rs) (nearAt rs) rs.length
    (fun _ => false) (List.finRange rs.length) (by simp) (List.nodup_finRange _) (by simp)
  constructor
  · intro r
    rw [sorted_residues_of, sorted_residues, hPerm.count_eq]
    exact List.count_eq_one_of_mem (List.nodup_finRange _) (List.mem_finRange r)
  · exact scheduleAux_length_le _ _ _ _ _

end PPROpt
